import Mathlib

/-!
Verification of the resource-sampling core of a terminal dashboard
(src/main.cpp).  The Linux-style branches of the samplers are shallowly
embedded as pure functions over explicit inputs: file contents appear as
lists of lines or as whitespace-separated token streams (with `none`
standing for a failed open), directory listings as entry lists, and the
load-average primitive as its return value together with the output
array after the call.  64-bit unsigned arithmetic is modelled on `Nat`
with explicit reduction modulo `2 ^ 64`; `double` arithmetic is
modelled exactly over `ℚ` (the reals the code manipulates are small
enough that the IEEE operations it performs are exact on the inputs the
claims mention).
-/

namespace TopDash

/-- `2 ^ 64`, the modulus of the C++ `uint64_t` arithmetic. -/
def U64 : Nat := 2 ^ 64

/-- Wrapping uint64 subtraction: for `a, b < 2 ^ 64` this is the value of
the C++ expression `a - b` on `uint64_t` operands. -/
def sub64 (a b : Nat) : Nat := (a + U64 - b) % U64

/-- `CpuSnapshot` from src/main.cpp:23-26. -/
structure CpuSnapshot where
  idle_ticks : Nat
  total_ticks : Nat
deriving DecidableEq

/-- `MemoryStatus` from src/main.cpp:28-32. -/
structure MemoryStatus where
  total_bytes : Nat
  available_bytes : Nat
  valid : Bool
deriving DecidableEq

/-- `TaskSummary` from src/main.cpp:34-37. -/
structure TaskSummary where
  total : Nat
  valid : Bool

/-- `LoadAverages` from src/main.cpp:39-44, the three doubles modelled
over `ℚ`. -/
structure LoadAverages where
  one : ℚ
  five : ℚ
  fifteen : ℚ
  valid : Bool

/-- `compute_cpu_usage` from src/main.cpp:122-130: the two uint64
subtractions wrap modulo `2 ^ 64`, the final expression
`active_delta * 100.0 / total_delta` is modelled exactly over `ℚ`. -/
def compute_cpu_usage (prev curr : CpuSnapshot) : ℚ :=
  let idle_delta := sub64 curr.idle_ticks prev.idle_ticks
  let total_delta := sub64 curr.total_ticks prev.total_ticks
  if total_delta = 0 then 0
  else
    let active_delta := sub64 total_delta idle_delta
    (active_delta : ℚ) * 100 / (total_delta : ℚ)

/-- Numeric value of a run of decimal digit characters, as accumulated
by the istream unsigned-integer extractor. -/
def digitsVal (cs : List Char) : Nat :=
  cs.foldl (fun a c => 10 * a + (c.toNat - 48)) 0

/-- istream-style parse of one whitespace-delimited token as an unsigned
integer: succeeds exactly on a nonempty all-digit token (the token
streams the samplers read are whitespace-separated fields, so a
partially numeric token models as a failed extraction). -/
def parseU64 (t : String) : Option Nat :=
  if t ≠ "" ∧ t.data.all Char.isDigit then some (digitsVal t.data) else none

/-- Whitespace tokenization of one line, as performed by repeated
istream extraction from an `istringstream`: the maximal nonempty runs
of non-whitespace characters. -/
def tokenize (s : String) : List String :=
  ((s.data.splitOnP Char.isWhitespace).map (fun cs => String.mk cs)).filter
    (fun t => t ≠ "")

/-- The field-reading loop of `sample_cpu` (src/main.cpp:105-108): reads
up to `n` unsigned fields from the remaining tokens; a missing or
unparsable field leaves it and every later field zero; a field
overflowing uint64 is stored as `2 ^ 64 - 1` (the extractor stores the
maximum and sets failbit) and stops the loop. -/
def readVals : List String → Nat → List Nat
  | _, 0 => []
  | [], n + 1 => List.replicate (n + 1) 0
  | t :: ts, n + 1 =>
    match parseU64 t with
    | some v =>
      if v < U64 then v :: readVals ts n
      else (U64 - 1) :: List.replicate n 0
    | none => List.replicate (n + 1) 0

/-- The Linux branch of `sample_cpu` (src/main.cpp:89-119).  The input
is the openable /proc/stat file as its list of lines (`none`: the open
failed).  `none` in the result is the `return false` of the source. -/
def sample_cpu (stat : Option (List String)) : Option CpuSnapshot :=
  match stat with
  | none => none
  | some [] => none
  | some (line :: _) =>
    match tokenize line with
    | [] => none
    | lab :: rest =>
      if lab = "cpu" then
        let values := readVals rest 10
        some ⟨(values.getD 3 0 + values.getD 4 0) % U64, values.sum % U64⟩
      else none

/-- The key/value/unit extraction loop of `sample_memory`
(src/main.cpp:152-161) over the whitespace token stream of
/proc/meminfo, carrying the `mem_total` and `mem_blank` accumulators;
an extraction failure (too few tokens left, or a non-numeric or
overflowing value token) ends the loop. -/
def memScan : List String → Nat → Nat → Nat × Nat
  | key :: value :: _u :: rest, mt, ma =>
    match parseU64 value with
    | none => (mt, ma)
    | some v =>
      if v < U64 then
        let mt1 := if key = "MemTotal:" then v * 1024 % U64 else mt
        let ma1 := if key = "MemAvailable:" then v * 1024 % U64 else ma
        if mt1 ≠ 0 ∧ ma1 ≠ 0 then (mt1, ma1) else memScan rest mt1 ma1
      else (mt, ma)
  | _, mt, ma => (mt, ma)

/-- The Linux branch of `sample_memory` (src/main.cpp:132-169); the
input is the whitespace token stream of /proc/meminfo, `none` standing
for a failed open. -/
def sample_memory (meminfo : Option (List String)) : MemoryStatus :=
  match meminfo with
  | none => ⟨0, 0, false⟩
  | some toks =>
    let r := memScan toks 0 0
    if r.1 ≠ 0 then ⟨r.1, r.2, true⟩ else ⟨0, 0, false⟩

/-- One entry of the /proc directory listing, as the directory iterator
presents it. -/
structure DirEntry where
  name : String
  is_directory : Bool

/-- The counting loop of the Linux branch of `sample_tasks`
(src/main.cpp:193-202): skip non-directories, count names that are
nonempty and all decimal digits. -/
def countNumeric : List DirEntry → Nat
  | [] => 0
  | e :: rest =>
    if e.is_directory = false then countNumeric rest
    else if e.name.isEmpty = false ∧ e.name.data.all Char.isDigit then
      1 + countNumeric rest
    else countNumeric rest

/-- The Linux branch of `sample_tasks` (src/main.cpp:190-209): `none`
models a filesystem traversal error (an exception thrown by the
directory iterator), which leaves the zero-initialized summary
invalid. -/
def sample_tasks (proc : Option (List DirEntry)) : TaskSummary :=
  match proc with
  | none => ⟨0, false⟩
  | some entries => ⟨countNumeric entries, true⟩

/-- The Linux branch of `sample_load_averages` (src/main.cpp:212-226):
`ret` is the return value of the `getloadavg` call and `loads` the
output array after the call; the zero-initialized result is populated
only when `ret = 3`. -/
def sample_load_averages (ret : Int) (loads : ℚ × ℚ × ℚ) : LoadAverages :=
  if ret = 3 then ⟨loads.1, loads.2.1, loads.2.2, true⟩ else ⟨0, 0, 0, false⟩

/-- The Windows branch of `sample_load_averages` (src/main.cpp:214-215):
the platform has no load-average primitive, the result is always
invalid. -/
def sample_load_averages_win : LoadAverages := ⟨0, 0, 0, false⟩

/-- Zero-padding to width 2 (`std::setw(2)`/`std::setfill` as used on
values below 100). -/
def pad2 (n : Nat) : String :=
  if n < 10 then "0" ++ toString n else toString n

/-- `format_uptime` from src/main.cpp:242-265. -/
def format_uptime (seconds : Nat) : String :=
  if seconds < 60 then toString seconds ++ "s"
  else
    let days := seconds / 86400
    let s1 := seconds % 86400
    let hours := s1 / 3600
    let s2 := s1 % 3600
    let minutes := s2 / 60
    (if days > 0 then
      toString days ++ " day" ++ (if days > 1 then "s" else "") ++ ", "
    else "") ++ pad2 hours ++ ":" ++ pad2 minutes

/-- C2: when the total tick counters of the two snapshots are equal the
total delta is zero and `compute_cpu_usage` returns exactly `0`; in
particular `compute_cpu_usage s s = 0` for every snapshot `s`.  (In this
exact-arithmetic model the function is total by construction: the only
division is guarded by the zero test, so no input divides by zero.) -/
theorem compute_cpu_usage_zero_total_delta :
    (∀ prev curr : CpuSnapshot, curr.total_ticks = prev.total_ticks →
        compute_cpu_usage prev curr = 0) ∧
    ∀ s : CpuSnapshot, compute_cpu_usage s s = 0 := by
  have key : ∀ prev curr : CpuSnapshot, curr.total_ticks = prev.total_ticks →
      compute_cpu_usage prev curr = 0 := by
    intro prev curr h
    have h0 : sub64 curr.total_ticks prev.total_ticks = 0 := by
      rw [h]
      unfold sub64
      have hu : prev.total_ticks + U64 - prev.total_ticks = U64 := by omega
      rw [hu, Nat.mod_self]
    simp only [compute_cpu_usage]
    rw [h0]
    rfl
  exact ⟨key, fun s => key s s rfl⟩

/-- Witness for C2 at a concrete pair of snapshots with equal totals. -/
theorem compute_cpu_usage_zero_total_delta_witness :
    compute_cpu_usage ⟨3, 7⟩ ⟨5, 7⟩ = 0 :=
  compute_cpu_usage_zero_total_delta.1 ⟨3, 7⟩ ⟨5, 7⟩ rfl

/-! ### C5 -/

/-- C5: `format_uptime` renders values below 60 as the decimal number
followed by `"s"`; otherwise it decomposes into days, hours and minutes
(leftover seconds dropped), prints the day count only when nonzero with
`day` pluralized for counts above 1 followed by `", "`, and prints hours
and minutes zero-padded to two digits separated by `":"`; the five
concrete values of the claim hold. -/
theorem format_uptime_spec :
    (∀ s : Nat, s < 60 → format_uptime s = toString s ++ "s") ∧
    (∀ s : Nat, 60 ≤ s → format_uptime s =
      (if 0 < s / 86400 then
        toString (s / 86400) ++ " day" ++ (if 1 < s / 86400 then "s" else "") ++ ", "
      else "") ++ pad2 (s / 3600 % 24) ++ ":" ++ pad2 (s / 60 % 60)) ∧
    format_uptime 0 = "0s" ∧ format_uptime 59 = "59s" ∧ format_uptime 60 = "00:01" ∧
    format_uptime 90000 = "1 day, 01:00" ∧ format_uptime 176400 = "2 days, 01:00" := by
  refine ⟨?_, ?_, by decide, by decide, by decide, by decide, by decide⟩
  · intro s hs
    simp [format_uptime, hs]
  · intro s hs
    have h1 : s % 86400 / 3600 = s / 3600 % 24 := by omega
    have h2 : s % 86400 % 3600 / 60 = s / 60 % 60 := by omega
    simp only [format_uptime, if_neg (by omega : ¬ s < 60)]
    rw [h1, h2]

/-- Witness for C5 in both regimes of the rendering. -/
theorem format_uptime_spec_witness :
    format_uptime 5 = "5s" ∧ format_uptime 3661 = "01:01" := by
  constructor
  · rw [format_uptime_spec.1 5 (by decide)]
    decide
  · rw [format_uptime_spec.2.1 3661 (by decide)]
    decide

/-! ### C6 -/

/-- The counting loop counts exactly the entries that are directories
with a nonempty all-digit name. -/
theorem countNumeric_eq_countP (l : List DirEntry) :
    countNumeric l = l.countP
      (fun e => e.is_directory && (!e.name.isEmpty && e.name.data.all Char.isDigit)) := by
  induction l with
  | nil => rfl
  | cons e rest ih =>
    rw [List.countP_cons]
    unfold countNumeric
    cases hdir : e.is_directory with
    | false => simp [hdir, ih]
    | true =>
      cases hemp : e.name.isEmpty with
      | true => simp [hdir, hemp, ih]
      | false =>
        cases hdig : e.name.data.all Char.isDigit with
        | false => simp [hdir, hemp, hdig, ih]
        | true =>
          simp [hdir, hemp, hdig, ih]
          omega

/-- C6: on a successful traversal `sample_tasks` returns, flagged valid,
exactly the number of directory entries whose names are nonempty and
entirely decimal digits (so entries such as `self` or `net` are
ignored); a traversal error yields the invalid zero summary instead of
propagating (the model's `none` input). -/
theorem sample_tasks_spec :
    (∀ entries : List DirEntry,
      sample_tasks (some entries) =
        ⟨entries.countP
          (fun e => e.is_directory && (!e.name.isEmpty && e.name.data.all Char.isDigit)),
         true⟩) ∧
    sample_tasks none = ⟨0, false⟩ := by
  refine ⟨?_, rfl⟩
  intro entries
  simp [sample_tasks, countNumeric_eq_countP]

/-! ### C7 -/

/-- C7: an invalid sampler result never carries nonzero numeric data:
whenever `sample_memory`, `sample_tasks` or `sample_load_averages`
returns `valid = false`, every numeric field of the result is zero. -/
theorem invalid_results_zero :
    (∀ f, (sample_memory f).valid = false →
      (sample_memory f).total_bytes = 0 ∧ (sample_memory f).available_bytes = 0) ∧
    (∀ l, (sample_tasks l).valid = false → (sample_tasks l).total = 0) ∧
    (∀ (r : Int) (ld : ℚ × ℚ × ℚ), (sample_load_averages r ld).valid = false →
      (sample_load_averages r ld).one = 0 ∧ (sample_load_averages r ld).five = 0 ∧
        (sample_load_averages r ld).fifteen = 0) := by
  refine ⟨?_, ?_, ?_⟩
  · intro f
    cases f with
    | none => intro _; exact ⟨rfl, rfl⟩
    | some toks =>
      simp only [sample_memory]
      split
      · intro hv
        simp at hv
      · intro _
        exact ⟨rfl, rfl⟩
  · intro l
    cases l with
    | none => intro _; rfl
    | some entries =>
      intro hv
      simp [sample_tasks] at hv
  · intro r ld
    simp only [sample_load_averages]
    split
    · intro hv
      simp at hv
    · intro _
      exact ⟨rfl, rfl, rfl⟩

/-- Witness for C7 at concrete failing inputs of each sampler. -/
theorem invalid_results_zero_witness :
    (sample_memory none).total_bytes = 0 ∧ (sample_memory none).available_bytes = 0 ∧
    (sample_tasks none).total = 0 ∧
    (sample_load_averages (-1) (1, 2, 3)).one = 0 ∧
    (sample_load_averages (-1) (1, 2, 3)).five = 0 ∧
    (sample_load_averages (-1) (1, 2, 3)).fifteen = 0 := by
  obtain ⟨h1, h2⟩ := invalid_results_zero.1 none rfl
  have h3 := invalid_results_zero.2.1 none rfl
  obtain ⟨h4, h5, h6⟩ := invalid_results_zero.2.2 (-1) (1, 2, 3) (by decide)
  exact ⟨h1, h2, h3, h4, h5, h6⟩

/-! ### C8 -/

/-- C9: the result of `sample_load_averages` is valid exactly when the
load-average primitive returned 3; in that case the three fields are the
returned values, and on the platform without the primitive the result is
always invalid. -/
theorem sample_load_averages_spec :
    (∀ (ret : Int) (loads : ℚ × ℚ × ℚ),
      (sample_load_averages ret loads).valid = true ↔ ret = 3) ∧
    (∀ loads : ℚ × ℚ × ℚ,
      sample_load_averages 3 loads = ⟨loads.1, loads.2.1, loads.2.2, true⟩) ∧
    sample_load_averages_win.valid = false := by
  refine ⟨?_, ?_, rfl⟩
  · intro ret loads
    by_cases h : ret = 3
    · simp [sample_load_averages, h]
    · simp [sample_load_averages, h]
  · intro loads
    simp [sample_load_averages]

/-! ### C3 -/

/-- On a list of nonempty all-digit tokens that fit in uint64, the
field-reading loop yields exactly the parsed values, padded with zeros
up to the requested field count. -/
theorem readVals_digits (ts : List String) (k : Nat)
    (h : ∀ t ∈ ts, t ≠ "" ∧ t.data.all Char.isDigit = true ∧ digitsVal t.data < U64)
    (hk : ts.length ≤ k) :
    readVals ts k = ts.map (fun t => digitsVal t.data) ++
      List.replicate (k - ts.length) 0 := by
  induction ts generalizing k with
  | nil => cases k <;> simp [readVals]
  | cons t ts ih =>
    cases k with
    | zero => simp at hk
    | succ n =>
      obtain ⟨hne, hdig, hlt⟩ := h t (List.mem_cons_self t ts)
      have hp : parseU64 t = some (digitsVal t.data) := by
        simp [parseU64, hne, hdig]
      simp only [readVals, hp, if_pos hlt]
      rw [ih n (fun x hx => h x (List.mem_cons_of_mem t hx)) (by simpa using hk)]
      simp [Nat.succ_sub_succ]

/-- C3: `sample_cpu` fails exactly when the source cannot be opened, its
first line is missing, or the first line's leading token is not the
literal `cpu`; on success, reading up to 10 unsigned fields with missing
trailing fields treated as zero, `total_ticks` is the uint64 sum of all
10 fields and `idle_ticks` the uint64 sum of the 4th and 5th fields
(1-indexed: idle + iowait). -/
theorem sample_cpu_spec :
    (∀ stat : Option (List String),
      sample_cpu stat = none ↔
        stat = none ∨ stat = some [] ∨
        ∃ line rest, stat = some (line :: rest) ∧ (tokenize line).headD "" ≠ "cpu") ∧
    (∀ (line : String) (rest fieldToks : List String),
      tokenize line = "cpu" :: fieldToks →
      fieldToks.length ≤ 10 →
      (∀ t ∈ fieldToks, t ≠ "" ∧ t.data.all Char.isDigit = true ∧ digitsVal t.data < U64) →
      sample_cpu (some (line :: rest)) =
        some ⟨((fieldToks.map (fun t : String => digitsVal t.data) ++
                  List.replicate (10 - fieldToks.length) 0).getD 3 0 +
               (fieldToks.map (fun t : String => digitsVal t.data) ++
                  List.replicate (10 - fieldToks.length) 0).getD 4 0) % U64,
              (fieldToks.map (fun t : String => digitsVal t.data) ++
                  List.replicate (10 - fieldToks.length) 0).sum % U64⟩) := by
  constructor
  · intro stat
    cases stat with
    | none => simp [sample_cpu]
    | some l =>
      cases l with
      | nil => simp [sample_cpu]
      | cons line rest =>
      simp only [sample_cpu]
      cases htk : tokenize line with
      | nil =>
        constructor
        · intro _
          exact Or.inr (Or.inr ⟨line, rest, rfl, by simp [htk]⟩)
        · intro _
          rfl
      | cons lab ts =>
        dsimp only
        by_cases hc : lab = "cpu"
        · rw [if_pos hc]
          constructor
          · intro hcontra
            exact absurd hcontra (by simp)
          · intro hr
            rcases hr with h1 | h2 | ⟨line2, rest2, heq, hne⟩
            · exact absurd h1 (by simp)
            · exact absurd h2 (by simp)
            · rw [Option.some.injEq, List.cons.injEq] at heq
              rw [← heq.1, htk] at hne
              exact absurd hc (by simpa using hne)
        · rw [if_neg hc]
          constructor
          · intro _
            exact Or.inr (Or.inr ⟨line, rest, rfl, by simp [htk, hc]⟩)
          · intro _
            rfl
  · intro line rest fieldToks htk hlen hdig
    simp only [sample_cpu, htk]
    rw [if_true, readVals_digits fieldToks 10 hdig hlen]

/-- Witness for C3: a concrete /proc/stat first line with five fields
present and five missing. -/
theorem sample_cpu_spec_witness :
    sample_cpu (some ["cpu 1 2 3 4 5"]) = some ⟨9, 15⟩ := by
  have h := sample_cpu_spec.2 "cpu 1 2 3 4 5" [] ["1", "2", "3", "4", "5"]
    (by decide) (by decide) (by decide)
  exact h.trans (by decide)

/-! ### C4 -/

end TopDash
